import Mathlib

/-!
Verification of the handle-lifetime and string-marshaling core of the
nwrfc-rs repository, a safe binding over the SAP NetWeaver RFC SDK.

Host strings (Rust `&str` / `String`) are modelled as lists of Unicode
code points (`HostStr`); the SDK's fixed-width wide-character buffers
(`SAP_UC`, UTF-16 code units) are modelled as lists of naturals.  The
native converters `RfcUTF8ToSAPUC` / `RfcSAPUCToUTF8` are external SDK
collaborators; they are modelled by UTF-16 encode/decode together with
the documented buffer-length protocol (success writes the converted
text plus a NUL terminator and reports the consumed length;
a too-small target buffer yields the `RFC_BUFFER_TOO_SMALL` status and
reports the needed size).
-/

/-- Host text: a list of Unicode code points (a Rust `&str` guarantees
each is a Unicode scalar value, captured by `ValidStr`). -/
abbrev HostStr := List Nat

/-- A Unicode scalar value: any code point except the surrogate range. -/
def ScalarValue (n : Nat) : Prop :=
  n < 0xD800 ∨ (0xDFFF < n ∧ n < 0x110000)

instance (n : Nat) : Decidable (ScalarValue n) := by
  unfold ScalarValue; infer_instance

/-- All code points of the string are Unicode scalar values (true of
every Rust string). -/
def ValidStr (s : HostStr) : Prop :=
  ∀ n ∈ s, ScalarValue n

instance (s : HostStr) : Decidable (ValidStr s) := by
  unfold ValidStr; infer_instance

/-- UTF-16 code units of one scalar value: one unit below `0x10000`,
a surrogate pair above. -/
def utf16Units (n : Nat) : List Nat :=
  if n < 0x10000 then [n]
  else [0xD800 + (n - 0x10000) / 0x400, 0xDC00 + (n - 0x10000) % 0x400]

/-- UTF-16 encoding of a host string. -/
def encodeUtf16 : HostStr → List Nat
  | [] => []
  | n :: rest => utf16Units n ++ encodeUtf16 rest

/-- UTF-16 decoding; fails (`none`) on lone or misordered surrogates. -/
def decodeUtf16 : List Nat → Option HostStr
  | [] => some []
  | [u] => if ScalarValue u then some [u] else none
  | u :: u2 :: rest =>
    if ScalarValue u then
      (decodeUtf16 (u2 :: rest)).map (fun cps => u :: cps)
    else if 0xD800 ≤ u ∧ u ≤ 0xDBFF ∧ 0xDC00 ≤ u2 ∧ u2 ≤ 0xDFFF then
      (decodeUtf16 rest).map
        (fun cps => (0x10000 + (u - 0xD800) * 0x400 + (u2 - 0xDC00)) :: cps)
    else none

/-- Number of UTF-8 bytes of one code point. -/
def utf8CharLen (n : Nat) : Nat :=
  if n < 0x80 then 1 else if n < 0x800 then 2 else if n < 0x10000 then 3 else 4

/-- Number of UTF-8 bytes of a host string (the Rust `str::len`). -/
def utf8Length : HostStr → Nat
  | [] => 0
  | n :: rest => utf8CharLen n + utf8Length rest

theorem one_le_utf8CharLen (n : Nat) : 1 ≤ utf8CharLen n := by
  unfold utf8CharLen
  repeat' split
  all_goals omega

theorem utf16Units_length (n : Nat) :
    (utf16Units n).length = if n < 0x10000 then 1 else 2 := by
  unfold utf16Units; split <;> rfl

theorem utf16Units_length_le (n : Nat) :
    (utf16Units n).length ≤ utf8CharLen n := by
  rw [utf16Units_length]
  unfold utf8CharLen
  repeat' split
  all_goals omega

theorem encodeUtf16_length_le (s : HostStr) :
    (encodeUtf16 s).length ≤ utf8Length s := by
  induction s with
  | nil => simp [encodeUtf16, utf8Length]
  | cons n rest ih =>
    simp only [encodeUtf16, utf8Length, List.length_append]
    have := utf16Units_length_le n
    omega

theorem length_le_utf8Length (s : HostStr) : s.length ≤ utf8Length s := by
  induction s with
  | nil => simp [utf8Length]
  | cons n rest ih =>
    simp only [utf8Length, List.length_cons]
    have := one_le_utf8CharLen n
    omega

theorem decodeUtf16_cons_scalar (u : Nat) (rest : List Nat) (h : ScalarValue u) :
    decodeUtf16 (u :: rest) = (decodeUtf16 rest).map (fun cps => u :: cps) := by
  cases rest with
  | nil => simp [decodeUtf16, h]
  | cons u2 r => simp [decodeUtf16, h]

theorem decodeUtf16_surrogate_pair (u u2 : Nat) (rest : List Nat)
    (h1 : 0xD800 ≤ u) (h2 : u ≤ 0xDBFF) (h3 : 0xDC00 ≤ u2) (h4 : u2 ≤ 0xDFFF) :
    decodeUtf16 (u :: u2 :: rest) =
      (decodeUtf16 rest).map
        (fun cps => (0x10000 + (u - 0xD800) * 0x400 + (u2 - 0xDC00)) :: cps) := by
  have hns : ¬ ScalarValue u := by unfold ScalarValue; omega
  simp [decodeUtf16, hns, h1, h2, h3, h4]

/-- Core round-trip of the UTF-16 model: decoding the encoding of a
valid host string yields the string back. -/
theorem decodeUtf16_encodeUtf16 (s : HostStr) (hs : ValidStr s) :
    decodeUtf16 (encodeUtf16 s) = some s := by
  induction s with
  | nil => rfl
  | cons n rest ih =>
    have hn : ScalarValue n := hs n (List.mem_cons_self n rest)
    have hrest : ValidStr rest := fun m hm => hs m (List.mem_cons_of_mem n hm)
    have ihr := ih hrest
    by_cases hbmp : n < 0x10000
    · have hunits : utf16Units n = [n] := by unfold utf16Units; simp [hbmp]
      simp only [encodeUtf16, hunits, List.cons_append, List.nil_append]
      rw [decodeUtf16_cons_scalar n _ hn, ihr]
      rfl
    · have hup : n < 0x110000 := by
        rcases hn with h | h
        · omega
        · exact h.2
      set v := n - 0x10000 with hv
      have hvlt : v < 0x100000 := by omega
      have hdiv : v / 0x400 < 0x400 := by omega
      have hmod : v % 0x400 < 0x400 := Nat.mod_lt _ (by omega)
      have hunits : utf16Units n = [0xD800 + v / 0x400, 0xDC00 + v % 0x400] := by
        unfold utf16Units; rw [if_neg hbmp]
      simp only [encodeUtf16, hunits, List.cons_append, List.nil_append]
      rw [decodeUtf16_surrogate_pair _ _ _ (by omega) (by omega) (by omega) (by omega), ihr]
      have hrecon : 0x10000 + (0xD800 + v / 0x400 - 0xD800) * 0x400 +
          (0xDC00 + v % 0x400 - 0xDC00) = n := by
        have := Nat.div_add_mod v 0x400
        omega
      rw [hrecon]
      rfl

/-- A zero UTF-16 unit in the encoding can only come from the NUL code
point itself. -/
theorem zero_mem_encodeUtf16 (s : HostStr) (h : (0 : Nat) ∈ encodeUtf16 s) :
    (0 : Nat) ∈ s := by
  induction s with
  | nil => simp [encodeUtf16] at h
  | cons n rest ih =>
    simp only [encodeUtf16, List.mem_append] at h
    rcases h with h | h
    · unfold utf16Units at h
      split at h
      · simp at h
        simp [h.symm]
      · simp at h
        rcases h with h | h <;> omega
    · exact List.mem_cons_of_mem n (ih h)

/-!
## SDK status codes, error groups, and the error record

`RFC_RC` and `RFC_ERROR_GROUP` are the SDK's enums; only the values the
binding inspects are named, the rest are `other`.  `RFC_ERROR_INFO` is
the fixed-layout error record (code, group, fixed-width key and message
fields); the six ABAP message fields are not inspected by any claim and
are elided.
-/

inductive RfcRc where
  | ok
  | bufferTooSmall
  | illegalState
  | unknownError
  | conversionFailure
  | other (n : Nat)
deriving DecidableEq

inductive RfcErrorGroup where
  | okGroup
  | externalApplicationFailure
  | otherGroup (n : Nat)
deriving DecidableEq

/-- Width of the fixed `key` field of `RFC_ERROR_INFO` (`SAP_UC[128]`),
taken from the SDK header layout. -/
def KEY_LEN : Nat := 128

/-- Width of the fixed `message` field of `RFC_ERROR_INFO`
(`SAP_UC[512]`), taken from the SDK header layout. -/
def MESSAGE_LEN : Nat := 512

structure RFC_ERROR_INFO where
  code : RfcRc
  group : RfcErrorGroup
  key : List Nat
  message : List Nat
deriving DecidableEq

/-- `RfcErrorInfo::new()`: the zero-initialized record. -/
def RFC_ERROR_INFO.new : RFC_ERROR_INFO :=
  { code := RfcRc.ok
    group := RfcErrorGroup.okGroup
    key := List.replicate KEY_LEN 0
    message := List.replicate MESSAGE_LEN 0 }

/-- Error record the modelled converter leaves behind on a too-small
target buffer. -/
def bufferTooSmallErr : RFC_ERROR_INFO :=
  { RFC_ERROR_INFO.new with code := RfcRc.bufferTooSmall }

/-- Error record the modelled converter leaves behind on invalid wide
text (lone surrogates). -/
def decodeErr : RFC_ERROR_INFO :=
  { RFC_ERROR_INFO.new with code := RfcRc.conversionFailure }

/-!
## The native converter calls and the growable-buffer retry shape

`ConvOut` is the observable outcome of one native converter call:
return code, bytes/units written to the target, the reported needed
size, the reported consumed length, and the error-info out-parameter.
-/

structure ConvOut where
  rc : RfcRc
  buf : List Nat
  bufLenOut : Nat
  resLen : Nat
  err : RFC_ERROR_INFO
deriving DecidableEq

/-- The shared shape of `uc::from_str` and `uc::to_string` (and of
`str_to_sap_uc` / `str_from_sap_uc` in the `src/src` variant): allocate
a buffer of capacity `len + 1`, call the converter; if and only if it
reports `RFC_BUFFER_TOO_SMALL`, grow the buffer to the reported needed
size plus one and retry once, treating any non-OK retry status as a
hard error; on success truncate the buffer to the reported consumed
length (`set_len(res_len)`).  `conv cap` is the converter called with a
target buffer of capacity `cap`. -/
def from_strGen (conv : Nat → ConvOut) (len : Nat) : Except RFC_ERROR_INFO (List Nat) :=
  let o1 := conv (len + 1)
  if o1.rc = RfcRc.bufferTooSmall then
    let o2 := conv (o1.bufLenOut + 1)
    if o2.rc ≠ RfcRc.ok then Except.error o2.err
    else Except.ok (o2.buf.take o2.resLen)
  else if o1.rc ≠ RfcRc.ok then Except.error o1.err
  else Except.ok (o1.buf.take o1.resLen)

/-- Modelled native `RfcUTF8ToSAPUC` applied to host string `value`
with a target buffer of capacity `cap` SAP_UC units: needs room for the
UTF-16 units plus a NUL terminator; on success writes them and reports
the unit count (terminator excluded); otherwise reports
`RFC_BUFFER_TOO_SMALL` and the needed size. -/
def utf8ToSapucOut (value : HostStr) (cap : Nat) : ConvOut :=
  let units := encodeUtf16 value
  if units.length + 1 ≤ cap then
    { rc := RfcRc.ok
      buf := units ++ [0]
      bufLenOut := cap
      resLen := units.length
      err := RFC_ERROR_INFO.new }
  else
    { rc := RfcRc.bufferTooSmall
      buf := []
      bufLenOut := units.length + 1
      resLen := 0
      err := bufferTooSmallErr }

/-- Modelled native `RfcSAPUCToUTF8` applied to the first `size` units
of `value` with a target buffer of `cap` bytes.  `buf` holds the
decoded code points standing for the UTF-8 bytes written; `resLen` is
the byte count, so `buf.take resLen = buf` always (there is at least
one byte per code point). -/
def sapucToUtf8Out (value : List Nat) (size : Nat) (cap : Nat) : ConvOut :=
  match decodeUtf16 (value.take size) with
  | none =>
    { rc := RfcRc.conversionFailure, buf := [], bufLenOut := 0, resLen := 0, err := decodeErr }
  | some cps =>
    if utf8Length cps + 1 ≤ cap then
      { rc := RfcRc.ok
        buf := cps
        bufLenOut := cap
        resLen := utf8Length cps
        err := RFC_ERROR_INFO.new }
    else
      { rc := RfcRc.bufferTooSmall
        buf := []
        bufLenOut := utf8Length cps + 1
        resLen := 0
        err := bufferTooSmallErr }

namespace uc

/-- `uc::from_str` (also `str_to_sap_uc`): encode a host string into a
freshly grown wide buffer, initial capacity `value.len() + 1` UTF-8
bytes' worth of units. -/
def from_str (value : HostStr) : Except RFC_ERROR_INFO (List Nat) :=
  from_strGen (utf8ToSapucOut value) (utf8Length value)

/-- `uc::to_string` (also the slice part of `str_from_sap_uc`): decode
the first `size` units of a wide buffer into host text, initial
capacity `size + 1` bytes, with the same retry-once protocol, then
UTF-8 validation. -/
def to_string (value : List Nat) (size : Nat) : Except RFC_ERROR_INFO HostStr :=
  from_strGen (sapucToUtf8Out value size) size

/-- `uc::to_string_truncate`: scan for the first NUL unit (or the end
of the buffer) and decode that prefix only. -/
def to_string_truncate (value : List Nat) : Except RFC_ERROR_INFO HostStr :=
  to_string value (value.indexOf 0)

/-- `uc::from_str_to_buffer`: single-shot encode into a caller-provided
fixed buffer `dest`; any non-OK converter status (a too-small buffer
included) is returned as an error.  Returns the written buffer contents
and the reported consumed length. -/
def from_str_to_buffer (value : HostStr) (dest : List Nat) :
    Except RFC_ERROR_INFO (List Nat × Nat) :=
  let units := encodeUtf16 value
  if units.length + 1 ≤ dest.length then
    Except.ok (units ++ [0] ++ dest.drop (units.length + 1), units.length)
  else Except.error bufferTooSmallErr

/-- Width of `RFC_ABAP_NAME` (`SAP_UC[30 + 1]`), from the SDK header. -/
def ABAP_NAME_LEN : Nat := 31

/-- `uc::from_str_to_abap_name`: encode into a zeroed fixed-width ABAP
name buffer via `from_str_to_buffer` (through `from_str_to_slice`). -/
def from_str_to_abap_name (value : HostStr) : Except RFC_ERROR_INFO (List Nat) :=
  match from_str_to_buffer value (List.replicate ABAP_NAME_LEN 0) with
  | Except.ok (dest, _) => Except.ok dest
  | Except.error e => Except.error e

end uc

theorem from_str_eq_ok (value : HostStr) :
    uc.from_str value = Except.ok (encodeUtf16 value) := by
  unfold uc.from_str from_strGen utf8ToSapucOut
  have hle : (encodeUtf16 value).length + 1 ≤ utf8Length value + 1 := by
    have := encodeUtf16_length_le value
    omega
  simp only [hle, if_pos]
  simp [List.take_left]

theorem to_string_of_decode (value : List Nat) (size : Nat) (cps : HostStr)
    (h : decodeUtf16 (value.take size) = some cps) :
    uc.to_string value size = Except.ok cps := by
  unfold uc.to_string from_strGen sapucToUtf8Out
  rw [h]
  have htake : cps.take (utf8Length cps) = cps :=
    List.take_of_length_le (length_le_utf8Length cps)
  by_cases hc : utf8Length cps + 1 ≤ size + 1
  · simp [hc, htake]
  · simp only [hc, if_neg, if_false]
    have hc2 : utf8Length cps + 1 ≤ utf8Length cps + 1 + 1 := by omega
    simp [hc2, htake]

theorem to_string_of_decode_fail (value : List Nat) (size : Nat)
    (h : decodeUtf16 (value.take size) = none) :
    uc.to_string value size = Except.error decodeErr := by
  unfold uc.to_string from_strGen sapucToUtf8Out
  rw [h]
  simp [decodeErr, bufferTooSmallErr, RFC_ERROR_INFO.new]

/-- Claim C1 (amended): for every host string containing no NUL code
point, decoding the result of encoding it yields the string back:
`to_string_truncate(from_str(x)) == x`.  (For strings with an interior
NUL the truncate step stops at the first NUL, see the counterexample.) -/
theorem uc_roundtrip_nul_free (x : HostStr) (hv : ValidStr x) (hz : (0 : Nat) ∉ x) :
    (uc.from_str x).bind uc.to_string_truncate = Except.ok x := by
  rw [from_str_eq_ok]
  show uc.to_string_truncate (encodeUtf16 x) = Except.ok x
  unfold uc.to_string_truncate
  have hnz : (0 : Nat) ∉ encodeUtf16 x := fun h => hz (zero_mem_encodeUtf16 x h)
  rw [List.indexOf_eq_length.2 hnz]
  apply to_string_of_decode
  rw [List.take_length]
  exact decodeUtf16_encodeUtf16 x hv

theorem uc_roundtrip_nul_free_witness :
    ValidStr [84, 101, 115, 116] ∧ (0 : Nat) ∉ ([84, 101, 115, 116] : HostStr) ∧
    (uc.from_str [84, 101, 115, 116]).bind uc.to_string_truncate =
      Except.ok ([84, 101, 115, 116] : HostStr) :=
  ⟨by decide, by decide, uc_roundtrip_nul_free [84, 101, 115, 116] (by decide) (by decide)⟩

/-- Claim C1 counterexample: on the one-code-point string NUL, encode
then decode yields the empty string, not the input, because
`to_string_truncate` stops at the first NUL unit. -/
theorem uc_roundtrip_nul_cex :
    (uc.from_str [0]).bind uc.to_string_truncate = Except.ok ([] : HostStr) ∧
    ([] : HostStr) ≠ [0] :=
  ⟨by rfl, by decide⟩

/-- Claim C2: `uc::from_str` is `from_strGen` at initial capacity
`value.len() + 1`; for any converter behavior: a first-call success
returns a buffer truncated to the reported consumed length (so its
length is the consumed length, not the capacity); exactly on a
buffer-too-small first status the converter is retried once at the
reported size (plus terminator slot), whose success returns its
consumed-length-truncated buffer and whose any non-OK status is
returned as a hard error; any other first-call failure is returned as
an error. -/
theorem from_str_retry_protocol (value : HostStr) (conv : Nat → ConvOut) (len : Nat) :
    uc.from_str value = from_strGen (utf8ToSapucOut value) (utf8Length value) ∧
    ((conv (len + 1)).rc = RfcRc.ok →
      from_strGen conv len =
        Except.ok ((conv (len + 1)).buf.take (conv (len + 1)).resLen) ∧
      ((conv (len + 1)).resLen ≤ (conv (len + 1)).buf.length →
        ∃ r, from_strGen conv len = Except.ok r ∧ r.length = (conv (len + 1)).resLen)) ∧
    ((conv (len + 1)).rc = RfcRc.bufferTooSmall →
      (((conv ((conv (len + 1)).bufLenOut + 1)).rc = RfcRc.ok →
        from_strGen conv len =
          Except.ok ((conv ((conv (len + 1)).bufLenOut + 1)).buf.take
            (conv ((conv (len + 1)).bufLenOut + 1)).resLen)) ∧
       ((conv ((conv (len + 1)).bufLenOut + 1)).rc ≠ RfcRc.ok →
        from_strGen conv len =
          Except.error (conv ((conv (len + 1)).bufLenOut + 1)).err))) ∧
    ((conv (len + 1)).rc ≠ RfcRc.ok → (conv (len + 1)).rc ≠ RfcRc.bufferTooSmall →
      from_strGen conv len = Except.error (conv (len + 1)).err) := by
  refine ⟨rfl, ?_, ?_, ?_⟩
  · intro h
    constructor
    · simp [from_strGen, h]
    · intro hle
      refine ⟨(conv (len + 1)).buf.take (conv (len + 1)).resLen, ?_, ?_⟩
      · simp [from_strGen, h]
      · simp [List.length_take]
        omega
  · intro h
    constructor
    · intro h2
      simp [from_strGen, h, h2]
    · intro h2
      simp [from_strGen, h, h2]
  · intro h1 h2
    simp [from_strGen, h1, h2]

theorem from_str_retry_protocol_witness :
    (utf8ToSapucOut [97] (utf8Length [97] + 1)).rc = RfcRc.ok ∧
    from_strGen (utf8ToSapucOut [97]) (utf8Length [97]) =
      Except.ok ((utf8ToSapucOut [97] (utf8Length [97] + 1)).buf.take
        (utf8ToSapucOut [97] (utf8Length [97] + 1)).resLen) :=
  ⟨by decide,
    ((from_str_retry_protocol [97] (utf8ToSapucOut [97]) (utf8Length [97])).2.1
      (by decide)).1⟩

/-!
## `RfcErrorInfo` operations

Two variants exist in the repository: the `nwrfc-rs` crate encodes the
custom message with the single-shot bounded encode and `.expect`s the
result (modelled as `Option`, `none` standing for the panic); the
`src/src` variant copies `min(len, field - 1)` units of the truncated
wide string into the field.
-/

namespace RfcErrorInfo

/-- `RfcErrorInfo::custom` of the `nwrfc-rs` crate: zero-init, set the
unknown-error code and external-application-failure group, then encode
the message into the fixed field via `from_str_to_slice`; the
`.expect` on the encode result panics when the encode fails, which is
modelled as `none`. -/
def custom (message : HostStr) : Option RFC_ERROR_INFO :=
  match uc.from_str_to_buffer message (List.replicate MESSAGE_LEN 0) with
  | Except.error _ => none
  | Except.ok (field, _) =>
    some { RFC_ERROR_INFO.new with
            code := RfcRc.unknownError
            group := RfcErrorGroup.externalApplicationFailure
            message := field }

/-- First-NUL truncation performed by the widestring
`from_str_truncate` used in the `src/src` variant. -/
def takeUntilNul (s : HostStr) : HostStr := s.takeWhile (fun n => n != 0)

/-- `RfcErrorInfo::custom` of the `src/src` variant: encode with a
trailing NUL, then `copy_nonoverlapping` of
`min(c_msg.len(), message.len() - 1)` units into the zeroed field. -/
def custom_src (message : HostStr) : RFC_ERROR_INFO :=
  let cMsg := encodeUtf16 (takeUntilNul message) ++ [0]
  let n := min cMsg.length (MESSAGE_LEN - 1)
  { RFC_ERROR_INFO.new with
      code := RfcRc.unknownError
      group := RfcErrorGroup.externalApplicationFailure
      message := cMsg.take n ++ List.replicate (MESSAGE_LEN - n) 0 }

/-- `RfcErrorInfo::key`: decode the fixed-width key field on demand;
the `.expect` panics (modelled `none`) when decoding fails. -/
def key (e : RFC_ERROR_INFO) : Option HostStr :=
  match uc.to_string_truncate e.key with
  | Except.ok s => some s
  | Except.error _ => none

/-- `RfcErrorInfo::message`: decode the fixed-width message field on
demand; the `.expect` panics (modelled `none`) when decoding fails. -/
def message (e : RFC_ERROR_INFO) : Option HostStr :=
  match uc.to_string_truncate e.message with
  | Except.ok s => some s
  | Except.error _ => none

end RfcErrorInfo

theorem encodeUtf16_replicate_ascii (k n : Nat) (h : n < 0x10000) :
    encodeUtf16 (List.replicate k n) = List.replicate k n := by
  induction k with
  | zero => rfl
  | succ m ih =>
    simp only [List.replicate_succ, encodeUtf16, ih]
    unfold utf16Units
    rw [if_pos h]
    rfl

/-- Claim C5 (amended): both variants of `custom` set the
unknown-error code and the external-application-failure group.  The
`src/src` variant truncates the message to the fixed field width and
never fails.  The `nwrfc-rs` variant writes the full encoded message
when it fits (terminator included), but panics (`.expect` on the
encode error, modelled `none`) when the encoded message does not fit
the field, rather than truncating. -/
theorem custom_error_sentinels (msg : HostStr) :
    ((RfcErrorInfo.custom_src msg).code = RfcRc.unknownError ∧
     (RfcErrorInfo.custom_src msg).group = RfcErrorGroup.externalApplicationFailure ∧
     (RfcErrorInfo.custom_src msg).message.length = MESSAGE_LEN) ∧
    ((encodeUtf16 msg).length + 1 ≤ MESSAGE_LEN →
      RfcErrorInfo.custom msg =
        some { RFC_ERROR_INFO.new with
                code := RfcRc.unknownError
                group := RfcErrorGroup.externalApplicationFailure
                message := encodeUtf16 msg ++ [0] ++
                  List.replicate (MESSAGE_LEN - ((encodeUtf16 msg).length + 1)) 0 }) ∧
    (MESSAGE_LEN < (encodeUtf16 msg).length + 1 →
      RfcErrorInfo.custom msg = none) := by
  refine ⟨⟨rfl, rfl, ?_⟩, ?_, ?_⟩
  · simp only [RfcErrorInfo.custom_src, List.length_append, List.length_take,
      List.length_replicate]
    omega
  · intro h
    unfold RfcErrorInfo.custom uc.from_str_to_buffer
    simp only [List.length_replicate]
    rw [if_pos h, List.drop_replicate]
  · intro h
    unfold RfcErrorInfo.custom uc.from_str_to_buffer
    simp only [List.length_replicate]
    rw [if_neg (by omega)]

theorem custom_error_sentinels_witness :
    (encodeUtf16 [72, 105]).length + 1 ≤ MESSAGE_LEN ∧
    RfcErrorInfo.custom [72, 105] =
      some { RFC_ERROR_INFO.new with
              code := RfcRc.unknownError
              group := RfcErrorGroup.externalApplicationFailure
              message := encodeUtf16 [72, 105] ++ [0] ++
                List.replicate (MESSAGE_LEN - ((encodeUtf16 [72, 105]).length + 1)) 0 } :=
  ⟨by decide, (custom_error_sentinels [72, 105]).2.1 (by decide)⟩

/-- Claim C5 counterexample: in the `nwrfc-rs` crate, `custom` on a
message of `MESSAGE_LEN` ASCII characters does not truncate — the
encode fails with buffer-too-small and the `.expect` panics (modelled
as `none`). -/
theorem custom_overlong_panics_cex :
    RfcErrorInfo.custom (List.replicate MESSAGE_LEN 97) = none := by
  unfold RfcErrorInfo.custom uc.from_str_to_buffer
  rw [encodeUtf16_replicate_ascii MESSAGE_LEN 97 (by omega)]
  simp only [List.length_replicate]
  rw [if_neg (by simp [MESSAGE_LEN])]

/-- Claim C9: the accessors `key()` and `message()` are partial at the
public interface: they panic (`.expect`, modelled `none`) exactly when
the fixed-width field fails to decode as host text, and return the
decoded text otherwise. -/
theorem error_accessors_panic_on_invalid (e : RFC_ERROR_INFO) :
    (∀ eI, uc.to_string_truncate e.key = Except.error eI → RfcErrorInfo.key e = none) ∧
    (∀ s, uc.to_string_truncate e.key = Except.ok s → RfcErrorInfo.key e = some s) ∧
    (∀ eI, uc.to_string_truncate e.message = Except.error eI →
      RfcErrorInfo.message e = none) ∧
    (∀ s, uc.to_string_truncate e.message = Except.ok s →
      RfcErrorInfo.message e = some s) := by
  refine ⟨?_, ?_, ?_, ?_⟩
  · intro eI h
    unfold RfcErrorInfo.key
    rw [h]
  · intro s h
    unfold RfcErrorInfo.key
    rw [h]
  · intro eI h
    unfold RfcErrorInfo.message
    rw [h]
  · intro s h
    unfold RfcErrorInfo.message
    rw [h]

theorem error_accessors_panic_on_invalid_witness :
    uc.to_string_truncate
        ({ RFC_ERROR_INFO.new with key := [0xD800] } : RFC_ERROR_INFO).key =
      Except.error decodeErr ∧
    RfcErrorInfo.key ({ RFC_ERROR_INFO.new with key := [0xD800] } : RFC_ERROR_INFO) =
      none :=
  ⟨by rfl,
    (error_accessors_panic_on_invalid { RFC_ERROR_INFO.new with key := [0xD800] }).1
      decodeErr (by rfl)⟩

/-- Claim C6 (amended): the bounded-length name encode never overruns
the fixed buffer and never panics, but it does not silently truncate:
when the encoded name (with its terminator) fits the field it succeeds
and writes exactly the encoded units, and when it does not fit it
returns the buffer-too-small error instead of truncating. -/
theorem abap_name_encode_overflow (value : HostStr) :
    ((encodeUtf16 value).length + 1 ≤ uc.ABAP_NAME_LEN →
      ∃ name, uc.from_str_to_abap_name value = Except.ok name ∧
        name.length = uc.ABAP_NAME_LEN ∧
        name.take (encodeUtf16 value).length = encodeUtf16 value) ∧
    (uc.ABAP_NAME_LEN < (encodeUtf16 value).length + 1 →
      uc.from_str_to_abap_name value = Except.error bufferTooSmallErr) := by
  constructor
  · intro h
    refine ⟨encodeUtf16 value ++ [0] ++
      (List.replicate uc.ABAP_NAME_LEN 0).drop ((encodeUtf16 value).length + 1), ?_, ?_, ?_⟩
    · unfold uc.from_str_to_abap_name uc.from_str_to_buffer
      simp only [List.length_replicate]
      rw [if_pos h]
    · simp only [List.length_append, List.length_drop, List.length_replicate,
        List.length_cons, List.length_nil]
      omega
    · rw [List.append_assoc, List.take_left]
  · intro h
    unfold uc.from_str_to_abap_name uc.from_str_to_buffer
    simp only [List.length_replicate]
    rw [if_neg (by omega)]

theorem abap_name_encode_overflow_witness :
    (encodeUtf16 [65]).length + 1 ≤ uc.ABAP_NAME_LEN ∧
    ∃ name, uc.from_str_to_abap_name [65] = Except.ok name ∧
      name.length = uc.ABAP_NAME_LEN ∧
      name.take (encodeUtf16 [65]).length = encodeUtf16 [65] :=
  ⟨by decide, (abap_name_encode_overflow [65]).1 (by decide)⟩

/-- Claim C6 counterexample: a 40-character ASCII name does not fit
the 31-unit `RFC_ABAP_NAME`; the encode reports the overflow as an
error instead of silently truncating and succeeding. -/
theorem abap_name_truncation_cex :
    uc.from_str_to_abap_name (List.replicate 40 65) = Except.error bufferTooSmallErr := by
  unfold uc.from_str_to_abap_name uc.from_str_to_buffer
  rw [encodeUtf16_replicate_ascii 40 65 (by omega)]
  simp [uc.ABAP_NAME_LEN]

/-!
## Parameters and the data container string protocol

`RFC_PARAMETER_DESC` carries the resolved field descriptor (name,
native type tag, direction tag, optional flag).  The native data
container is modelled as the per-name stored wide string that
`RfcSetString` / `RfcGetStringLength` / `RfcGetString` observe.
-/

inductive RfcDirection where
  | rfcImport
  | rfcExport
  | rfcChanging
  | rfcTables
deriving DecidableEq

inductive RfcType where
  | rfcChar
  | rfcDate
  | rfcNum
  | rfcFloat
  | rfcInt
  | rfcInt1
  | rfcInt2
  | rfcInt8
  | rfcString
  | rfcXString
  | rfcStructure
  | rfcTable
  | otherType (n : Nat)
deriving DecidableEq

structure RFC_PARAMETER_DESC where
  name : List Nat
  type_ : RfcType
  direction : RfcDirection
  optional : Nat

/-- The function instance's data container, observed through the
native string accessors: the wide string stored under each name. -/
def DataContainer := List Nat → List Nat

/-- Native `RfcSetString`: store `len` units read from the source
buffer under the name. -/
def rfcSetString (c : DataContainer) (nm : List Nat) (buf : List Nat) (len : Nat) :
    DataContainer :=
  fun n => if n = nm then buf.take len else c n

/-- Native `RfcGetStringLength`: the stored length in units. -/
def rfcGetStringLength (c : DataContainer) (nm : List Nat) : Nat :=
  (c nm).length

/-- Native `RfcGetString` into a target of `cap` units: needs room for
the stored units plus a NUL terminator; reports the stored length. -/
def rfcGetString (c : DataContainer) (nm : List Nat) (cap : Nat) :
    Except RFC_ERROR_INFO (List Nat × Nat) :=
  if (c nm).length + 1 ≤ cap then Except.ok (c nm ++ [0], (c nm).length)
  else Except.error bufferTooSmallErr

structure RfcParameter where
  handle : DataContainer
  desc : RFC_PARAMETER_DESC

namespace RfcParameter

/-- `RfcParameter::is_import`. -/
def is_import (p : RfcParameter) : Bool :=
  p.desc.direction == RfcDirection.rfcImport ||
    p.desc.direction == RfcDirection.rfcChanging

/-- `RfcParameter::is_export`. -/
def is_export (p : RfcParameter) : Bool :=
  p.desc.direction == RfcDirection.rfcExport ||
    p.desc.direction == RfcDirection.rfcChanging

/-- `RfcParameter::is_table`. -/
def is_table (p : RfcParameter) : Bool :=
  p.desc.direction == RfcDirection.rfcTables || p.desc.type_ == RfcType.rfcTable

/-- `RfcParameter::set_string`: one-call encode-then-set, passing the
encoded unit count as the length. -/
def set_string (p : RfcParameter) (value : HostStr) :
    Except RFC_ERROR_INFO DataContainer :=
  match uc.from_str value with
  | Except.error e => Except.error e
  | Except.ok ucValue =>
    Except.ok (rfcSetString p.handle p.desc.name ucValue ucValue.length)

/-- `RfcParameter::get_string`: query the stored length, allocate
exactly that length plus one, fetch once, decode. -/
def get_string (p : RfcParameter) : Except RFC_ERROR_INFO HostStr :=
  let strLen := rfcGetStringLength p.handle p.desc.name + 1
  match rfcGetString p.handle p.desc.name strLen with
  | Except.error e => Except.error e
  | Except.ok (buf, resLen) => uc.to_string buf resLen

/-- `RfcParameter::set_string` of the `src/src` variant (`rfc.rs`):
encode via `str_to_sap_uc`, but pass `value.len()` — the UTF-8 byte
length, not the encoded SAP_UC unit count — as the length to
`RfcSetString`.  The readable source region is what the converter
wrote: the encoded units followed by the NUL terminator; a read past
that region (code points of three or four UTF-8 bytes) would be of
uninitialized capacity in the real code and is clamped here. -/
def set_string_src (p : RfcParameter) (value : HostStr) :
    Except RFC_ERROR_INFO DataContainer :=
  match uc.from_str value with
  | Except.error e => Except.error e
  | Except.ok ucValue =>
    Except.ok (rfcSetString p.handle p.desc.name (ucValue ++ [0]) (utf8Length value))

end RfcParameter

theorem get_string_stored (p : RfcParameter) (value : HostStr) (hv : ValidStr value)
    (h : p.handle p.desc.name = encodeUtf16 value) :
    RfcParameter.get_string p = Except.ok value := by
  unfold RfcParameter.get_string rfcGetStringLength rfcGetString
  simp only [h]
  rw [if_pos (by omega)]
  apply to_string_of_decode
  rw [List.take_left]
  exact decodeUtf16_encodeUtf16 value hv

/-- Claim C7 (amended): in the `nwrfc-rs` variant (`parameter.rs`),
`get_string` after `set_string(value)` returns exactly `value` for
every string value — the two-phase read allocates exactly the stored
length plus one and never under-allocates or truncates.  The
`src/src` variant (`rfc.rs`) passes the UTF-8 byte length instead of
the encoded unit count to `RfcSetString`, so its round-trip holds
exactly when the two lengths coincide (ASCII values); a non-ASCII
value reads back with trailing units, see the counterexample. -/
theorem set_get_string_roundtrip (p : RfcParameter) (value : HostStr)
    (hv : ValidStr value) :
    (∃ c, RfcParameter.set_string p value = Except.ok c ∧
      RfcParameter.get_string { p with handle := c } = Except.ok value ∧
      rfcGetStringLength c p.desc.name = (encodeUtf16 value).length) ∧
    (utf8Length value = (encodeUtf16 value).length →
      ∃ c, RfcParameter.set_string_src p value = Except.ok c ∧
        RfcParameter.get_string { p with handle := c } = Except.ok value) := by
  constructor
  · have hc : rfcSetString p.handle p.desc.name (encodeUtf16 value)
        (encodeUtf16 value).length p.desc.name = encodeUtf16 value := by
      unfold rfcSetString
      rw [if_pos rfl, List.take_length]
    refine ⟨rfcSetString p.handle p.desc.name (encodeUtf16 value)
      (encodeUtf16 value).length, ?_, ?_, ?_⟩
    · unfold RfcParameter.set_string
      rw [from_str_eq_ok]
    · exact get_string_stored _ value hv hc
    · unfold rfcGetStringLength
      rw [hc]
  · intro hsrc
    have hc : rfcSetString p.handle p.desc.name (encodeUtf16 value ++ [0])
        (utf8Length value) p.desc.name = encodeUtf16 value := by
      unfold rfcSetString
      rw [if_pos rfl, hsrc, List.take_left]
    refine ⟨rfcSetString p.handle p.desc.name (encodeUtf16 value ++ [0])
      (utf8Length value), ?_, ?_⟩
    · unfold RfcParameter.set_string_src
      rw [from_str_eq_ok]
    · exact get_string_stored _ value hv hc

theorem set_get_string_roundtrip_witness :
    ValidStr [104, 105] ∧
    utf8Length [104, 105] = (encodeUtf16 [104, 105]).length ∧
    (∃ c, RfcParameter.set_string
        { handle := fun _ => [],
          desc := { name := [80], type_ := RfcType.rfcString,
                    direction := RfcDirection.rfcImport, optional := 0 } } [104, 105] =
        Except.ok c ∧
      RfcParameter.get_string
        { handle := c,
          desc := { name := [80], type_ := RfcType.rfcString,
                    direction := RfcDirection.rfcImport, optional := 0 } } =
        Except.ok ([104, 105] : HostStr) ∧
      rfcGetStringLength c [80] = (encodeUtf16 [104, 105]).length) ∧
    (∃ c, RfcParameter.set_string_src
        { handle := fun _ => [],
          desc := { name := [80], type_ := RfcType.rfcString,
                    direction := RfcDirection.rfcImport, optional := 0 } } [104, 105] =
        Except.ok c ∧
      RfcParameter.get_string
        { handle := c,
          desc := { name := [80], type_ := RfcType.rfcString,
                    direction := RfcDirection.rfcImport, optional := 0 } } =
        Except.ok ([104, 105] : HostStr)) :=
  ⟨by decide, by decide,
    (set_get_string_roundtrip
      { handle := fun _ => [],
        desc := { name := [80], type_ := RfcType.rfcString,
                  direction := RfcDirection.rfcImport, optional := 0 } }
      [104, 105] (by decide)).1,
    (set_get_string_roundtrip
      { handle := fun _ => [],
        desc := { name := [80], type_ := RfcType.rfcString,
                  direction := RfcDirection.rfcImport, optional := 0 } }
      [104, 105] (by decide)).2 (by decide)⟩

/-- Claim C7 counterexample: with the `src/src` variant cited by the
claim, setting the one-code-point value `é` (code point 233: two UTF-8
bytes, one SAP_UC unit) stores two units — the character and the NUL
terminator — so `get_string` returns the value with a trailing NUL,
not the value. -/
theorem set_get_string_roundtrip_cex :
    (RfcParameter.set_string_src
        { handle := fun _ => [],
          desc := { name := [80], type_ := RfcType.rfcString,
                    direction := RfcDirection.rfcImport, optional := 0 } } [233]).bind
      (fun c => RfcParameter.get_string
        { handle := c,
          desc := { name := [80], type_ := RfcType.rfcString,
                    direction := RfcDirection.rfcImport, optional := 0 } }) =
      Except.ok ([233, 0] : HostStr) ∧
    ([233, 0] : HostStr) ≠ [233] :=
  ⟨by rfl, by decide⟩

/-- Claim C10: a parameter whose direction is CHANGING satisfies both
`is_import` and `is_export` (the capability predicates overlap rather
than partitioning), and `is_table` holds exactly when the direction is
TABLES or the native type tag is the table type. -/
theorem param_direction_predicates (p : RfcParameter) :
    (p.desc.direction = RfcDirection.rfcChanging →
      RfcParameter.is_import p = true ∧ RfcParameter.is_export p = true) ∧
    (RfcParameter.is_table p = true ↔
      (p.desc.direction = RfcDirection.rfcTables ∨ p.desc.type_ = RfcType.rfcTable)) := by
  constructor
  · intro h
    unfold RfcParameter.is_import RfcParameter.is_export
    rw [h]
    constructor <;> simp [beq_iff_eq]
  · unfold RfcParameter.is_table
    simp [Bool.or_eq_true, beq_iff_eq]

theorem param_direction_predicates_witness :
    RfcParameter.is_import
        { handle := fun _ => [],
          desc := { name := [], type_ := RfcType.rfcString,
                    direction := RfcDirection.rfcChanging, optional := 0 } } = true ∧
    RfcParameter.is_export
        { handle := fun _ => [],
          desc := { name := [], type_ := RfcType.rfcString,
                    direction := RfcDirection.rfcChanging, optional := 0 } } = true :=
  (param_direction_predicates
    { handle := fun _ => [],
      desc := { name := [], type_ := RfcType.rfcString,
                direction := RfcDirection.rfcChanging, optional := 0 } }).1 rfl

/-!
## Handle release (`Drop` impls)

`dropFunction` embeds `impl Drop for RfcFunction` and `dropConnection`
embeds `impl Drop for RfcConnection`, parameterized by the status each
native destroy/close call would return.  A handle is a `Bool` flag
(`true` = non-null).  Each returns the handles after the drop, the
native calls performed, and the warnings logged; the return type
carries no error value — nothing is propagated to the caller.
-/

inductive NCall where
  | destroyFunction
  | destroyFunctionDesc
  | closeConnection
deriving DecidableEq

inductive LogWarning where
  | functionDiscardFailed
  | functionDescDiscardFailed
  | connectionCloseFailed
deriving DecidableEq

structure FuncHandles where
  func : Bool
  desc : Bool
deriving DecidableEq

/-- `impl Drop for RfcFunction`: if the instance handle is non-null,
destroy it (warn on any non-OK status) and null it; then, if the
description handle is non-null, destroy it (warn on any non-OK status
other than `RFC_ILLEGAL_STATE`) and null it. -/
def dropFunction (rcFunc rcDesc : RfcRc) (h : FuncHandles) :
    FuncHandles × List NCall × List LogWarning :=
  let sF :=
    if h.func then
      (false, [NCall.destroyFunction],
        if rcFunc = RfcRc.ok then ([] : List LogWarning)
        else [LogWarning.functionDiscardFailed])
    else (h.func, [], [])
  let sD :=
    if h.desc then
      (false, [NCall.destroyFunctionDesc],
        if rcDesc = RfcRc.ok ∨ rcDesc = RfcRc.illegalState then ([] : List LogWarning)
        else [LogWarning.functionDescDiscardFailed])
    else (h.desc, [], [])
  (⟨sF.1, sD.1⟩, sF.2.1 ++ sD.2.1, sF.2.2 ++ sD.2.2)

/-- `impl Drop for RfcConnection`: if the handle is non-null, close it
(warn on any non-OK status) and null it. -/
def dropConnection (rc : RfcRc) (handle : Bool) : Bool × List NCall × List LogWarning :=
  if handle then
    (false, [NCall.closeConnection],
      if rc = RfcRc.ok then ([] : List LogWarning) else [LogWarning.connectionCloseFailed])
  else (handle, [], [])

/-- Claim C3: on function release, an `RFC_ILLEGAL_STATE` status from
destroying the description handle is treated as success (no warning,
and the total return type shows nothing is propagated); any other
non-OK status from that destroy is logged as a warning; and the
suppression applies only at that call site — an `RFC_ILLEGAL_STATE`
status from destroying the instance handle is logged like any other
failure. -/
theorem drop_function_illegal_state_suppression (rcF rcD : RfcRc) :
    (dropFunction rcF RfcRc.illegalState ⟨true, true⟩).2.2 =
      (if rcF = RfcRc.ok then ([] : List LogWarning)
       else [LogWarning.functionDiscardFailed]) ∧
    (rcD ≠ RfcRc.ok → rcD ≠ RfcRc.illegalState →
      LogWarning.functionDescDiscardFailed ∈ (dropFunction rcF rcD ⟨true, true⟩).2.2) ∧
    LogWarning.functionDiscardFailed ∈
      (dropFunction RfcRc.illegalState rcD ⟨true, true⟩).2.2 ∧
    (rcF ≠ RfcRc.ok →
      LogWarning.functionDiscardFailed ∈ (dropFunction rcF rcD ⟨true, true⟩).2.2) := by
  refine ⟨?_, ?_, ?_, ?_⟩
  · by_cases hf : rcF = RfcRc.ok <;> simp [dropFunction, hf]
  · intro h1 h2
    simp [dropFunction, h1, h2]
  · simp [dropFunction]
  · intro h1
    simp [dropFunction, h1]

theorem drop_function_illegal_state_suppression_witness :
    RfcRc.other 7 ≠ RfcRc.ok ∧ RfcRc.other 7 ≠ RfcRc.illegalState ∧
    LogWarning.functionDescDiscardFailed ∈
      (dropFunction RfcRc.ok (RfcRc.other 7) ⟨true, true⟩).2.2 :=
  ⟨by decide, by decide,
    (drop_function_illegal_state_suppression RfcRc.ok (RfcRc.other 7)).2.1
      (by decide) (by decide)⟩

/-- Claim C4: releasing a function destroys the instance handle before
the description handle; both function handles (and the connection
handle on close) are nulled after their destroy attempt, so a second
run of the release code performs no native destroy or close call and
logs nothing. -/
theorem drop_release_order_and_idempotence (rcF rcD rcF2 rcD2 rc rc2 : RfcRc)
    (h : FuncHandles) (hc : Bool) :
    (dropFunction rcF rcD ⟨true, true⟩).2.1 =
      [NCall.destroyFunction, NCall.destroyFunctionDesc] ∧
    (dropFunction rcF rcD h).1 = ⟨false, false⟩ ∧
    (dropFunction rcF2 rcD2 (dropFunction rcF rcD h).1).2.1 = [] ∧
    (dropFunction rcF2 rcD2 (dropFunction rcF rcD h).1).2.2 = [] ∧
    (dropConnection rc hc).1 = false ∧
    (dropConnection rc2 (dropConnection rc hc).1).2.1 = [] := by
  obtain ⟨f, d⟩ := h
  cases f <;> cases d <;> cases hc <;>
    simp [dropFunction, dropConnection]

/-!
## Tables: cursor movement and row materialization

The table is modelled as its row list plus the native cursor; rows are
abstract values.  Each native call is a small function returning its
outcome and the trace of calls it makes; `get_row`, `get_first_row`
and `get_last_row` compose a cursor move with `current_row` exactly as
the source does.
-/

inductive TCall where
  | moveTo (index : Nat)
  | moveToFirstRow
  | moveToLastRow
  | getCurrentRow
  | getRowType
deriving DecidableEq

structure RfcTable where
  rows : List Nat
  cursor : Nat

/-- Error left behind by a failed native cursor move. -/
def tableMoveErr : RFC_ERROR_INFO :=
  { RFC_ERROR_INFO.new with code := RfcRc.other 1 }

/-- Error left behind when `RfcGetCurrentRow` returns a null handle. -/
def nullHandleErr : RFC_ERROR_INFO :=
  { RFC_ERROR_INFO.new with code := RfcRc.other 2 }

/-- Native `RfcMoveTo`: position the cursor on an existing row. -/
def rfcMoveTo (t : RfcTable) (index : Nat) :
    Except RFC_ERROR_INFO RfcTable × List TCall :=
  (if index < t.rows.length then Except.ok { t with cursor := index }
   else Except.error tableMoveErr,
   [TCall.moveTo index])

/-- Native `RfcMoveToFirstRow`: fails on an empty table. -/
def rfcMoveToFirstRow (t : RfcTable) :
    Except RFC_ERROR_INFO RfcTable × List TCall :=
  (if 0 < t.rows.length then Except.ok { t with cursor := 0 }
   else Except.error tableMoveErr,
   [TCall.moveToFirstRow])

/-- Native `RfcMoveToLastRow`: fails on an empty table. -/
def rfcMoveToLastRow (t : RfcTable) :
    Except RFC_ERROR_INFO RfcTable × List TCall :=
  (if 0 < t.rows.length then Except.ok { t with cursor := t.rows.length - 1 }
   else Except.error tableMoveErr,
   [TCall.moveToLastRow])

/-- Native `RfcGetCurrentRow`: the structure handle at the cursor, or
a null handle (an error) when the cursor is out of range. -/
def rfcGetCurrentRow (t : RfcTable) : Except RFC_ERROR_INFO Nat × List TCall :=
  (if h : t.cursor < t.rows.length then Except.ok (t.rows.get ⟨t.cursor, h⟩)
   else Except.error nullHandleErr,
   [TCall.getCurrentRow])

/-- Native `RfcGetRowType`: the row type descriptor handle. -/
def rfcGetRowType (_t : RfcTable) : Except RFC_ERROR_INFO Nat × List TCall :=
  (Except.ok 0, [TCall.getRowType])

namespace RfcTable

/-- `RfcTable::current_row`: materialize the structure at the current
cursor position (current-row handle, then row type descriptor). -/
def current_row (t : RfcTable) : Except RFC_ERROR_INFO Nat × List TCall :=
  let r1 := rfcGetCurrentRow t
  match r1.1 with
  | Except.error e => (Except.error e, r1.2)
  | Except.ok row =>
    let r2 := rfcGetRowType t
    match r2.1 with
    | Except.error e => (Except.error e, r1.2 ++ r2.2)
    | Except.ok _ => (Except.ok row, r1.2 ++ r2.2)

/-- `RfcTable::get_row`: move the cursor to `index`, then materialize. -/
def get_row (t : RfcTable) (index : Nat) : Except RFC_ERROR_INFO Nat × List TCall :=
  let r1 := rfcMoveTo t index
  match r1.1 with
  | Except.error e => (Except.error e, r1.2)
  | Except.ok t2 =>
    let r2 := current_row t2
    (r2.1, r1.2 ++ r2.2)

/-- `RfcTable::get_first_row`: move to the first row, then materialize. -/
def get_first_row (t : RfcTable) : Except RFC_ERROR_INFO Nat × List TCall :=
  let r1 := rfcMoveToFirstRow t
  match r1.1 with
  | Except.error e => (Except.error e, r1.2)
  | Except.ok t2 =>
    let r2 := current_row t2
    (r2.1, r1.2 ++ r2.2)

/-- `RfcTable::get_last_row`: move to the last row, then materialize. -/
def get_last_row (t : RfcTable) : Except RFC_ERROR_INFO Nat × List TCall :=
  let r1 := rfcMoveToLastRow t
  match r1.1 with
  | Except.error e => (Except.error e, r1.2)
  | Except.ok t2 =>
    let r2 := current_row t2
    (r2.1, r1.2 ++ r2.2)

end RfcTable

/-- Claim C8: every cursor-moving table read is two-step — move the
cursor, then materialize the structure at the resulting position; when
the move fails the operation returns the move error and its call trace
contains no materialization call, and when the move succeeds the trace
is exactly move-then-materialize. -/
theorem table_cursor_two_step (t : RfcTable) (index : Nat) :
    (t.rows.length ≤ index →
      RfcTable.get_row t index = (Except.error tableMoveErr, [TCall.moveTo index])) ∧
    (index < t.rows.length →
      ∃ r, RfcTable.get_row t index =
        (Except.ok r, [TCall.moveTo index, TCall.getCurrentRow, TCall.getRowType])) ∧
    (t.rows.length = 0 →
      RfcTable.get_first_row t = (Except.error tableMoveErr, [TCall.moveToFirstRow]) ∧
      RfcTable.get_last_row t = (Except.error tableMoveErr, [TCall.moveToLastRow])) ∧
    (0 < t.rows.length →
      (∃ r, RfcTable.get_first_row t =
        (Except.ok r, [TCall.moveToFirstRow, TCall.getCurrentRow, TCall.getRowType])) ∧
      (∃ r, RfcTable.get_last_row t =
        (Except.ok r, [TCall.moveToLastRow, TCall.getCurrentRow, TCall.getRowType]))) := by
  refine ⟨?_, ?_, ?_, ?_⟩
  · intro h
    unfold RfcTable.get_row rfcMoveTo
    rw [if_neg (by omega)]
  · intro h
    refine ⟨t.rows.get ⟨index, h⟩, ?_⟩
    simp [RfcTable.get_row, rfcMoveTo, RfcTable.current_row, rfcGetCurrentRow,
      rfcGetRowType, h]
  · intro h
    constructor
    · unfold RfcTable.get_first_row rfcMoveToFirstRow
      rw [if_neg (by omega)]
    · unfold RfcTable.get_last_row rfcMoveToLastRow
      rw [if_neg (by omega)]
  · intro h
    constructor
    · refine ⟨t.rows.get ⟨0, h⟩, ?_⟩
      simp [RfcTable.get_first_row, rfcMoveToFirstRow, RfcTable.current_row,
        rfcGetCurrentRow, rfcGetRowType, h]
    · refine ⟨t.rows.get ⟨t.rows.length - 1, by omega⟩, ?_⟩
      simp [RfcTable.get_last_row, rfcMoveToLastRow, RfcTable.current_row,
        rfcGetCurrentRow, rfcGetRowType, h]

theorem table_cursor_two_step_witness :
    (0 : Nat) < ([5] : List Nat).length ∧
    ∃ r, RfcTable.get_row ⟨[5], 0⟩ 0 =
      (Except.ok r, [TCall.moveTo 0, TCall.getCurrentRow, TCall.getRowType]) :=
  ⟨by decide, (table_cursor_two_step ⟨[5], 0⟩ 0).2.1 (by decide)⟩
